import Mathlib

/-!
Verification of the DELAG data-retrieval pipeline against its specification.

The Python sources are embedded shallowly:

* `synchronize_ndvi_to_lst.py` — `get_image_date_map` (a Python `dict`
  built by repeated key assignment, modelled as an insertion-ordered
  association list) and `find_nearest_image` (Python `min` over the dict
  keys with an absolute-difference key function, modelled as a
  first-wins left fold).  Dates are modelled as `Int` day numbers: every
  date parsed by `strptime('%Y-%m-%d')` is a midnight `datetime`, so
  comparison and subtraction of those `datetime`s coincide with
  comparison and subtraction of day numbers.  The regex search plus
  `strptime` parse applied to each basename is abstracted as an
  `extract : α → Option Int` parameter.
* `filter_lst_range.py` — `filter_image_by_range` over an image whose
  pixels are `Px` (IEEE float values abstracted as `ℚ`, plus the `NaN`
  marker; the only float operations the code performs on pixels are
  `<`/`>` comparisons, which are false on `NaN`, exactly as modelled).
* `era5_retriever.py` / `gldas21_retriever.py` —
  `resample_to_match_reference` (grid fast-path check and replacement of
  the source file), the existing-file skip logic of `get_era5_for_date`
  and `download_gldas_lsts`, and the file-system write discipline of
  `export_ee_image` and `resample_to_match_reference` as explicit
  operation traces with crash semantics.
* `ndvi_retrieval.py` — the bounded retry loop of `download_ndvi`.
-/

namespace DELAG

/-! ## DateIndex: `synchronize_ndvi_to_lst.py` -/

/-- One Python `dict` assignment `m[k] = v` on an insertion-ordered
association list: if the key is present its value is updated in place
(the key keeps its position), otherwise the pair is appended. -/
def dictInsert {α : Type} (m : List (Int × α)) (k : Int) (v : α) : List (Int × α) :=
  if m.any (fun q => q.1 == k) then
    m.map (fun q => if q.1 == k then (k, v) else q)
  else
    m ++ [(k, v)]

/-- Embedding of `get_image_date_map` (synchronize_ndvi_to_lst.py, lines
19-32): scan
the files in order; for each file whose name yields a date (the regex
search and `strptime` parse of the basename are abstracted as
`extract`), assign `date_map[file_date] = file_path`. -/
def get_image_date_map {α : Type} (extract : α → Option Int) (files : List α) :
    List (Int × α) :=
  files.foldl
    (fun m f =>
      match extract f with
      | some d => dictInsert m d f
      | none => m)
    []

/-- The path of the file encountered last in scan order among those
whose name embeds the date `d` (specification-side characterisation used
to state last-seen-wins). -/
def lastDated {α : Type} (extract : α → Option Int) (d : Int) : List α → Option α
  | [] => none
  | f :: fs =>
    match lastDated extract d fs with
    | some p => some p
    | none => if extract f = some d then some f else none

/-- Python's `min(xs, key=key)` for a nonempty iterable `x :: xs`:
a left fold that replaces the current best only on a strictly smaller
key, so the first element attaining the minimum wins. -/
def pyMin (key : Int → ℕ) (x : Int) (xs : List Int) : Int :=
  xs.foldl (fun b a => if key a < key b then a else b) x

/-- Embedding of `find_nearest_image` (synchronize_ndvi_to_lst.py, lines
34-53):
`None` on an empty map, otherwise `source_map[closest]` where `closest`
is `min(source_map.keys(), key=lambda date: abs(date - target_date))`;
the dict's keys iterate in insertion order. -/
def find_nearest_image {α : Type} (target : Int) (m : List (Int × α)) : Option α :=
  match m with
  | [] => none
  | (d, _) :: rest =>
    m.lookup (pyMin (fun d2 => (d2 - target).natAbs) d (rest.map Prod.fst))

/-- The per-date loop of `main` (synchronize_ndvi_to_lst.py, lines
82-104): for each target date look up the nearest source image; a `some`
result yields a copy action, a `none` result is skipped and the loop
continues. -/
def sync_actions {α : Type} (lstDates : List Int) (ndviMap : List (Int × α)) :
    List (Int × α) :=
  lstDates.filterMap (fun d => (find_nearest_image d ndviMap).map (fun p => (d, p)))

/-! ### Association-list lemmas -/

theorem mem_dictInsert {α : Type} (m : List (Int × α)) (k : Int) (v : α)
    (d : Int) (p : α) :
    (d, p) ∈ dictInsert m k v ↔ (d = k ∧ p = v) ∨ (d ≠ k ∧ (d, p) ∈ m) := by
  unfold dictInsert
  by_cases hk : m.any (fun q => q.1 == k)
  · rw [if_pos hk]
    rw [List.any_eq_true] at hk
    obtain ⟨q0, hq0, hq0k⟩ := hk
    rw [beq_iff_eq] at hq0k
    constructor
    · intro h
      rw [List.mem_map] at h
      obtain ⟨⟨qd, qp⟩, hq, hqe⟩ := h
      by_cases hqk : qd = k
      · rw [if_pos (by simpa using hqk)] at hqe
        rw [Prod.mk.injEq] at hqe
        exact Or.inl ⟨hqe.1.symm, hqe.2.symm⟩
      · rw [if_neg (by simpa using hqk)] at hqe
        rw [Prod.mk.injEq] at hqe
        obtain ⟨h1, h2⟩ := hqe
        subst h1
        subst h2
        exact Or.inr ⟨hqk, hq⟩
    · rintro (⟨hd, hp⟩ | ⟨hd, hm⟩)
      · subst hd
        subst hp
        rw [List.mem_map]
        exact ⟨q0, hq0, by rw [if_pos (by simpa using hq0k)]⟩
      · rw [List.mem_map]
        exact ⟨(d, p), hm, by rw [if_neg (by simpa using hd)]⟩
  · rw [if_neg hk]
    rw [List.any_eq_true] at hk
    push_neg at hk
    simp only [List.mem_append, List.mem_singleton]
    constructor
    · rintro (hm | he)
      · refine Or.inr ⟨?_, hm⟩
        intro hdk
        have hne := hk (d, p) hm
        simp [hdk] at hne
      · rw [Prod.mk.injEq] at he
        exact Or.inl he
    · rintro (⟨hd, hp⟩ | ⟨_, hm⟩)
      · subst hd
        subst hp
        exact Or.inr rfl
      · exact Or.inl hm

theorem map_fst_dictInsert {α : Type} (m : List (Int × α)) (k : Int) (v : α) :
    (dictInsert m k v).map Prod.fst =
      if m.any (fun q => q.1 == k) then m.map Prod.fst else m.map Prod.fst ++ [k] := by
  unfold dictInsert
  by_cases hk : m.any (fun q => q.1 == k)
  · rw [if_pos hk, if_pos hk, List.map_map]
    refine List.map_congr_left ?_
    intro q _
    by_cases hq : q.1 = k
    · simp [hq]
    · simp [hq]
  · rw [if_neg hk, if_neg hk, List.map_append]
    rfl

theorem nodup_keys_dictInsert {α : Type} (m : List (Int × α)) (k : Int) (v : α)
    (hm : (m.map Prod.fst).Nodup) : ((dictInsert m k v).map Prod.fst).Nodup := by
  rw [map_fst_dictInsert]
  by_cases hk : m.any (fun q => q.1 == k)
  · rw [if_pos hk]
    exact hm
  · rw [if_neg hk]
    rw [List.any_eq_true] at hk
    push_neg at hk
    refine List.Nodup.append hm (List.nodup_singleton k) ?_
    intro a ha hb
    rw [List.mem_singleton] at hb
    subst hb
    rw [List.mem_map] at ha
    obtain ⟨q, hq, hqa⟩ := ha
    have hne := hk q hq
    simp [hqa] at hne

theorem get_image_date_map_foldl {α : Type} (extract : α → Option Int) :
    ∀ (files : List α) (m : List (Int × α)), (m.map Prod.fst).Nodup →
      ((files.foldl (fun m f => match extract f with
          | some d => dictInsert m d f
          | none => m) m).map Prod.fst).Nodup ∧
      (∀ (d : Int) (p : α),
        ((d, p) ∈ files.foldl (fun m f => match extract f with
          | some d => dictInsert m d f
          | none => m) m ↔
        (lastDated extract d files = some p ∨
          (lastDated extract d files = none ∧ (d, p) ∈ m))))
  | [], m, hm => by
    refine ⟨hm, ?_⟩
    intro d p
    simp [lastDated]
  | f :: fs, m, hm => by
    have hm' : (((match extract f with
        | some d => dictInsert m d f
        | none => m) : List (Int × α)).map Prod.fst).Nodup := by
      cases hef : extract f with
      | some d0 => exact nodup_keys_dictInsert m d0 f hm
      | none => exact hm
    obtain ⟨ih1, ih2⟩ := get_image_date_map_foldl extract fs _ hm'
    rw [List.foldl_cons]
    refine ⟨ih1, ?_⟩
    intro d p
    rw [ih2 d p]
    cases hlf : lastDated extract d fs with
    | some q =>
      simp [lastDated, hlf]
    | none =>
      simp only [lastDated, hlf]
      cases hef : extract f with
      | none =>
        simp [hef]
      | some d0 =>
        by_cases hdd : d0 = d
        · subst hdd
          rw [mem_dictInsert]
          simp [hef]
          tauto
        · rw [mem_dictInsert]
          have hne : ¬ (extract f = some d) := by
            rw [hef]
            intro hcon
            exact hdd (Option.some.injEq _ _ ▸ hcon)
          simp [hef, hne]
          constructor
          · rintro (⟨h1, _⟩ | ⟨h1, h2⟩)
            · exact absurd h1.symm hdd
            · exact Or.inr ⟨fun hcon => h1 hcon.symm, h2⟩
          · rintro (⟨h1, _⟩ | ⟨h1, h2⟩)
            · exact absurd h1 hdd
            · exact Or.inr ⟨fun hcon => h1 hcon.symm, h2⟩

theorem pyMin_mem (key : Int → ℕ) :
    ∀ (xs : List Int) (x : Int), pyMin key x xs = x ∨ pyMin key x xs ∈ xs
  | [], _ => Or.inl rfl
  | a :: as, x => by
    have hstep : pyMin key x (a :: as) = pyMin key (if key a < key x then a else x) as := by
      rw [pyMin, pyMin, List.foldl_cons]
    rcases pyMin_mem key as (if key a < key x then a else x) with h | h
    · rw [hstep, h]
      by_cases hc : key a < key x
      · rw [if_pos hc]
        exact Or.inr (List.mem_cons_self a as)
      · rw [if_neg hc]
        exact Or.inl rfl
    · rw [hstep]
      exact Or.inr (List.mem_cons_of_mem a h)

theorem pyMin_le (key : Int → ℕ) :
    ∀ (xs : List Int) (x : Int),
      key (pyMin key x xs) ≤ key x ∧ ∀ y ∈ xs, key (pyMin key x xs) ≤ key y
  | [], x => ⟨le_refl _, by simp⟩
  | a :: as, x => by
    have hstep : pyMin key x (a :: as) = pyMin key (if key a < key x then a else x) as := by
      rw [pyMin, pyMin, List.foldl_cons]
    obtain ⟨ih1, ih2⟩ := pyMin_le key as (if key a < key x then a else x)
    have hcx : key (if key a < key x then a else x) ≤ key x := by
      by_cases hc : key a < key x
      · rw [if_pos hc]
        exact le_of_lt hc
      · rw [if_neg hc]
    have hca : key (if key a < key x then a else x) ≤ key a := by
      by_cases hc : key a < key x
      · rw [if_pos hc]
      · rw [if_neg hc]
        exact le_of_not_lt hc
    rw [hstep]
    refine ⟨le_trans ih1 hcx, ?_⟩
    intro y hy
    rcases List.mem_cons.mp hy with h3 | h3
    · rw [h3]
      exact le_trans ih1 hca
    · exact ih2 y h3

theorem pyMin_head (key : Int → ℕ) :
    ∀ (xs : List Int) (x : Int), (∀ y ∈ xs, key x ≤ key y) → pyMin key x xs = x
  | [], _, _ => rfl
  | a :: as, x, h => by
    have hstep : pyMin key x (a :: as) = pyMin key (if key a < key x then a else x) as := by
      rw [pyMin, pyMin, List.foldl_cons]
    have hxa : ¬ key a < key x := not_lt.mpr (h a (List.mem_cons_self a as))
    rw [hstep, if_neg hxa]
    exact pyMin_head key as x (fun y hy => h y (List.mem_cons_of_mem a hy))

theorem lookup_mem {α : Type} :
    ∀ (m : List (Int × α)) (k : Int), k ∈ m.map Prod.fst →
      ∃ p, m.lookup k = some p ∧ (k, p) ∈ m
  | [], _, h => by simp at h
  | (d, q) :: rest, k, h => by
    by_cases hk : k = d
    · subst hk
      refine ⟨q, ?_, List.mem_cons_self _ _⟩
      simp [List.lookup]
    · have h' : k ∈ rest.map Prod.fst := by
        rw [List.map_cons, List.mem_cons] at h
        rcases h with h1 | h2
        · exact absurd h1 hk
        · exact h2
      obtain ⟨p, hl, hm⟩ := lookup_mem rest k h'
      refine ⟨p, ?_, List.mem_cons_of_mem _ hm⟩
      have hbeq : (k == d) = false := by simpa using hk
      simp [List.lookup, hbeq]
      exact hl

theorem sync_actions_empty_map {α : Type} (lstDates : List Int) :
    sync_actions lstDates ([] : List (Int × α)) = [] := by
  induction lstDates with
  | nil => rfl
  | cons d ds ih => exact ih

/-- C10: when the directory scan meets two or more files embedding the
same calendar date, `get_image_date_map` keeps exactly one path per date
— the path of the file encountered last in scan order (last-seen-wins) —
and its key set is duplicate-free for every input file list. -/
theorem get_image_date_map_last_seen_wins {α : Type} (extract : α → Option Int)
    (files : List α) :
    ((get_image_date_map extract files).map Prod.fst).Nodup ∧
    ∀ (d : Int) (p : α),
      ((d, p) ∈ get_image_date_map extract files ↔ lastDated extract d files = some p) := by
  obtain ⟨h1, h2⟩ := get_image_date_map_foldl extract files [] (by simp)
  refine ⟨h1, ?_⟩
  intro d p
  have h3 := h2 d p
  simp only [List.not_mem_nil, and_false, or_false] at h3
  exact h3

/-- C2: for a non-empty date-to-path mapping, `find_nearest_image`
returns the path of a date minimizing the absolute day-difference to the
target; for an empty mapping it returns `none`, and the caller's
per-date loop skips such dates and keeps running. -/
theorem find_nearest_image_minimizes {α : Type} (t : Int) (m : List (Int × α)) :
    (m = [] → find_nearest_image t m = none) ∧
    (m ≠ [] → ∃ d p, (d, p) ∈ m ∧ find_nearest_image t m = some p ∧
      ∀ x ∈ m, (d - t).natAbs ≤ (x.1 - t).natAbs) ∧
    (∀ lstDates : List Int, sync_actions lstDates ([] : List (Int × α)) = []) := by
  refine ⟨?_, ?_, ?_⟩
  · intro h
    subst h
    rfl
  · intro hne
    obtain ⟨⟨d0, p0⟩, rest, rfl⟩ := List.exists_cons_of_ne_nil hne
    have hcmem : pyMin (fun d2 => (d2 - t).natAbs) d0 (rest.map Prod.fst)
        ∈ ((d0, p0) :: rest).map Prod.fst := by
      rcases pyMin_mem (fun d2 => (d2 - t).natAbs) (rest.map Prod.fst) d0 with h | h
      · rw [h]
        simp
      · rw [List.map_cons]
        exact List.mem_cons_of_mem _ h
    obtain ⟨p, hl, hm⟩ := lookup_mem _ _ hcmem
    obtain ⟨h1, h2⟩ := pyMin_le (fun d2 => (d2 - t).natAbs) (rest.map Prod.fst) d0
    refine ⟨_, p, hm, ?_, ?_⟩
    · simpa [find_nearest_image] using hl
    · intro x hx
      rcases List.mem_cons.mp hx with h3 | h3
      · rw [h3]
        exact h1
      · exact h2 x.1 (List.mem_map_of_mem Prod.fst h3)
  · exact sync_actions_empty_map

/-- Witness for C2: on the spec's example map {10 ↦ A, 20 ↦ B} with
target day 14, a minimizing entry is returned. -/
theorem find_nearest_image_minimizes_witness :
    ∃ d p, (d, p) ∈ [((10 : Int), ("A" : String)), (20, ("B" : String))] ∧
      find_nearest_image 14 [((10 : Int), ("A" : String)), (20, ("B" : String))] = some p ∧
      ∀ x ∈ [((10 : Int), ("A" : String)), (20, ("B" : String))],
        (d - 14).natAbs ≤ (x.1 - 14).natAbs :=
  (find_nearest_image_minimizes 14 [((10 : Int), ("A" : String)), (20, ("B" : String))]).2.1
    (by decide)

/-- C3 counterexample: with the map built by inserting day 20 (path B)
before day 10 (path A) and target day 15 — a tie at distance 5 — the
code returns path B, the LATER of the two equidistant dates, so
"ties broken by the earliest date regardless of the order in which the
map was built" is false. -/
theorem find_nearest_image_tie_counterexample :
    find_nearest_image 15 [((20 : Int), ("B" : String)), (10, ("A" : String))] = some ("B") ∧
    ((10 : Int) - 15).natAbs = ((20 : Int) - 15).natAbs ∧ (10 : Int) < 20 := by
  refine ⟨by decide, by decide, by decide⟩

/-- C3 (amended): on a tie in absolute day-difference,
`find_nearest_image` deterministically returns the entry that was
inserted FIRST into the mapping (Python's `min` is first-wins over the
dict's insertion order), not the entry with the earliest date: whenever
the first-inserted entry's distance is minimal, its path is returned. -/
theorem find_nearest_image_tie_insertion_order {α : Type} (t d0 : Int) (p0 : α)
    (rest : List (Int × α))
    (h : ∀ x ∈ rest, (d0 - t).natAbs ≤ (x.1 - t).natAbs) :
    find_nearest_image t ((d0, p0) :: rest) = some p0 := by
  have hmin : pyMin (fun d2 => (d2 - t).natAbs) d0 (rest.map Prod.fst) = d0 := by
    refine pyMin_head _ _ _ ?_
    intro y hy
    rw [List.mem_map] at hy
    obtain ⟨x, hx, rfl⟩ := hy
    exact h x hx
  simp [find_nearest_image, hmin, List.lookup]

/-- Witness for the amended C3: in the tied map inserted as
[20 ↦ B, 10 ↦ A] with target 15, the first-inserted (later-dated) entry
B is returned. -/
theorem find_nearest_image_tie_insertion_order_witness :
    find_nearest_image 15 [((20 : Int), ("B" : String)), (10, ("A" : String))] = some ("B") :=
  find_nearest_image_tie_insertion_order 15 20 ("B") [(10, ("A" : String))] (by decide)

/-! ## ValueRangeFilter: `filter_lst_range.py` -/

/-- A pixel sample of a floating-point raster: either the NaN
missing-data marker or a finite value (abstracted as `ℚ`).  The only
float operations `filter_image_by_range` performs on pixels are the
comparisons `<` and `>`, and both are false when the operand is NaN,
exactly as modelled here. -/
inductive Px where
  | nan : Px
  | val : ℚ → Px
deriving DecidableEq

/-- The mask `(band_data < lower_bound) | (band_data > upper_bound)`,
per pixel; both comparisons are false on NaN. -/
def outOfRange (lo hi : ℚ) : Px → Bool
  | Px.nan => false
  | Px.val v => decide (v < lo) || decide (hi < v)

/-- The per-pixel effect of `band_data[mask] = np.nan`. -/
def replacePx (lo hi : ℚ) (p : Px) : Px :=
  if outOfRange lo hi p then Px.nan else p

/-- The count `pixels_to_change = np.sum(mask)` for one band. -/
def bandChanged (lo hi : ℚ) (b : List Px) : ℕ :=
  b.countP (fun p => outOfRange lo hi p)

/-- One band after the loop body of `filter_image_by_range`: the band
is masked and written back only when `pixels_to_change > 0`. -/
def filterBand (lo hi : ℚ) (b : List Px) : List Px :=
  if 0 < bandChanged lo hi b then b.map (replacePx lo hi) else b

/-- A raster image as `filter_lst_range.py` sees it: per-band pixel
arrays plus the no-data metadata value. -/
structure Image where
  bands : List (List Px)
  nodata : Option Px
deriving DecidableEq

/-- The test `nodata_val is not None and np.isnan(nodata_val)`. -/
def isNanNodata : Option Px → Bool
  | some Px.nan => true
  | _ => false

/-- Embedding of `filter_image_by_range` (filter_lst_range.py, lines
21-51): every
band is read and masked against `[lower_bound, upper_bound]`, and
written back only when its mask is non-empty; the per-band counts are
accumulated into `total_changed`; if `total_changed > 0` the no-data
metadata is set to NaN unless it already is NaN, otherwise nothing is
modified.  Returns the resulting image and `total_changed`. -/
def filter_image_by_range (lo hi : ℚ) (img : Image) : Image × ℕ :=
  (⟨img.bands.map (filterBand lo hi),
    if 0 < (img.bands.map (bandChanged lo hi)).sum then
      (if isNanNodata img.nodata then img.nodata else some Px.nan)
    else img.nodata⟩,
   (img.bands.map (bandChanged lo hi)).sum)

theorem map_replacePx_of_no_change (lo hi : ℚ) (b : List Px)
    (h : bandChanged lo hi b = 0) : b.map (replacePx lo hi) = b := by
  rw [bandChanged, List.countP_eq_zero] at h
  refine (List.map_congr_left ?_).trans (List.map_id b)
  intro p hp
  rw [replacePx, if_neg (h p hp)]
  rfl

theorem filterBand_eq_map (lo hi : ℚ) (b : List Px) :
    filterBand lo hi b = b.map (replacePx lo hi) := by
  rw [filterBand]
  by_cases h : 0 < bandChanged lo hi b
  · rw [if_pos h]
  · rw [if_neg h]
    exact (map_replacePx_of_no_change lo hi b (Nat.eq_zero_of_not_pos h)).symm

theorem outOfRange_replacePx (lo hi : ℚ) (p : Px) :
    outOfRange lo hi (replacePx lo hi p) = false := by
  rw [replacePx]
  by_cases h : outOfRange lo hi p
  · rw [if_pos h]
    rfl
  · rw [if_neg h]
    simpa using h

theorem bandChanged_filterBand (lo hi : ℚ) (b : List Px) :
    bandChanged lo hi (filterBand lo hi b) = 0 := by
  rw [filterBand_eq_map, bandChanged, List.countP_map, List.countP_eq_zero]
  intro p _
  simp [Function.comp, outOfRange_replacePx]

/-- C5: the range filter is inclusive: the output bands are exactly the
input bands mapped through `replacePx`, which replaces a pixel value
strictly below `lower` or strictly above `upper` with NaN and keeps a
value inside `[lower, upper]` — boundary values included — unchanged;
the number of changed pixels is returned. -/
theorem filter_image_by_range_inclusive (lo hi : ℚ) (img : Image) :
    (filter_image_by_range lo hi img).1.bands
        = img.bands.map (fun b => b.map (replacePx lo hi)) ∧
    (∀ v : ℚ, v < lo ∨ hi < v → replacePx lo hi (Px.val v) = Px.nan) ∧
    (∀ v : ℚ, lo ≤ v → v ≤ hi → replacePx lo hi (Px.val v) = Px.val v) ∧
    (filter_image_by_range lo hi img).2
        = (img.bands.map (fun b => b.countP (fun p => outOfRange lo hi p))).sum := by
  refine ⟨?_, ?_, ?_, rfl⟩
  · show img.bands.map (filterBand lo hi) = _
    exact List.map_congr_left (fun b _ => filterBand_eq_map lo hi b)
  · intro v hv
    have hmask : outOfRange lo hi (Px.val v) = true := by
      rcases hv with h | h
      · simp [outOfRange, h]
      · simp [outOfRange, h]
    rw [replacePx, if_pos hmask]
  · intro v h1 h2
    have hmask : outOfRange lo hi (Px.val v) = false := by
      simp [outOfRange, not_lt.mpr h1, not_lt.mpr h2]
    rw [replacePx, hmask]
    simp

/-- Witness for C5 at the pipeline's bounds [260, 340]: 250 is replaced
with NaN and the boundary value 260 is retained. -/
theorem filter_image_by_range_inclusive_witness :
    replacePx 260 340 (Px.val 250) = Px.nan ∧
    replacePx 260 340 (Px.val 260) = Px.val 260 :=
  ⟨(filter_image_by_range_inclusive 260 340 ⟨[], none⟩).2.1 250 (Or.inl (by decide)),
   (filter_image_by_range_inclusive 260 340 ⟨[], none⟩).2.2.1 260 (by decide) (by decide)⟩

/-- C6: the range filter is idempotent: for bounds `lo ≤ hi`, a second
application with the same bounds changes zero pixels (already-NaN pixels
are neither changed nor counted again) and returns the first
application's image unchanged, metadata included. -/
theorem filter_image_by_range_idempotent (lo hi : ℚ) (img : Image) (_hlohi : lo ≤ hi) :
    filter_image_by_range lo hi (filter_image_by_range lo hi img).1
      = ((filter_image_by_range lo hi img).1, 0) := by
  have htot : ((filter_image_by_range lo hi img).1.bands.map (bandChanged lo hi)).sum = 0 := by
    show ((img.bands.map (filterBand lo hi)).map (bandChanged lo hi)).sum = 0
    rw [List.map_map]
    apply List.sum_eq_zero
    intro n hn
    rw [List.mem_map] at hn
    obtain ⟨b, _, rfl⟩ := hn
    exact bandChanged_filterBand lo hi b
  have hbands : (filter_image_by_range lo hi img).1.bands.map (filterBand lo hi)
      = (filter_image_by_range lo hi img).1.bands := by
    refine (List.map_congr_left ?_).trans (List.map_id _)
    intro b hb
    have hb0 : bandChanged lo hi b = 0 :=
      List.sum_eq_zero_iff.mp htot _ (List.mem_map_of_mem _ hb)
    rw [filterBand, if_neg (by rw [hb0]; exact lt_irrefl 0)]
    rfl
  show (⟨(filter_image_by_range lo hi img).1.bands.map (filterBand lo hi),
      if 0 < ((filter_image_by_range lo hi img).1.bands.map (bandChanged lo hi)).sum then
        (if isNanNodata (filter_image_by_range lo hi img).1.nodata then
          (filter_image_by_range lo hi img).1.nodata else some Px.nan)
      else (filter_image_by_range lo hi img).1.nodata⟩,
     ((filter_image_by_range lo hi img).1.bands.map (bandChanged lo hi)).sum)
    = ((filter_image_by_range lo hi img).1, 0)
  rw [htot, hbands, if_neg (lt_irrefl 0)]

/-- An example LST image: one band with an out-of-range and an in-range
pixel, and a non-NaN no-data value. -/
def exImage : Image := ⟨[[Px.val 250, Px.val 300]], some (Px.val 0)⟩

/-- Witness for C6 at bounds [260, 340] on `exImage`. -/
theorem filter_image_by_range_idempotent_witness :
    filter_image_by_range 260 340 (filter_image_by_range 260 340 exImage).1
      = ((filter_image_by_range 260 340 exImage).1, 0) :=
  filter_image_by_range_idempotent 260 340 exImage (by decide)

/-- C7: the metadata effect is exactly conditional on a change: a
positive changed-pixel count forces the no-data metadata to NaN, and a
zero count leaves the whole image — pixel data and metadata — untouched. -/
theorem filter_image_by_range_metadata (lo hi : ℚ) (img : Image) :
    (0 < (filter_image_by_range lo hi img).2 →
      (filter_image_by_range lo hi img).1.nodata = some Px.nan) ∧
    ((filter_image_by_range lo hi img).2 = 0 →
      (filter_image_by_range lo hi img).1 = img) := by
  constructor
  · intro hpos
    have hpos' : 0 < (img.bands.map (bandChanged lo hi)).sum := hpos
    show (if 0 < (img.bands.map (bandChanged lo hi)).sum then
        (if isNanNodata img.nodata then img.nodata else some Px.nan)
      else img.nodata) = some Px.nan
    rw [if_pos hpos']
    by_cases hin : isNanNodata img.nodata
    · rw [if_pos hin]
      cases hnd : img.nodata with
      | none => rw [hnd] at hin; simp [isNanNodata] at hin
      | some p =>
        cases p with
        | nan => rfl
        | val v => rw [hnd] at hin; simp [isNanNodata] at hin
    · rw [if_neg hin]
  · intro h0
    have h0' : (img.bands.map (bandChanged lo hi)).sum = 0 := h0
    have hbands : img.bands.map (filterBand lo hi) = img.bands := by
      refine (List.map_congr_left ?_).trans (List.map_id _)
      intro b hb
      have hb0 : bandChanged lo hi b = 0 :=
        List.sum_eq_zero_iff.mp h0' _ (List.mem_map_of_mem _ hb)
      rw [filterBand, if_neg (by rw [hb0]; exact lt_irrefl 0)]
      rfl
    show (⟨img.bands.map (filterBand lo hi),
        if 0 < (img.bands.map (bandChanged lo hi)).sum then
          (if isNanNodata img.nodata then img.nodata else some Px.nan)
        else img.nodata⟩ : Image) = img
    rw [h0', hbands, if_neg (lt_irrefl 0)]

/-- Witness for C7: on `exImage` (one out-of-range pixel) the
no-data metadata becomes NaN; on an all-in-range image nothing changes. -/
theorem filter_image_by_range_metadata_witness :
    (filter_image_by_range 260 340 exImage).1.nodata = some Px.nan ∧
    (filter_image_by_range 260 340 ⟨[[Px.val 300]], some (Px.val 0)⟩).1
      = ⟨[[Px.val 300]], some (Px.val 0)⟩ :=
  ⟨(filter_image_by_range_metadata 260 340 exImage).1 (by decide),
   (filter_image_by_range_metadata 260 340 ⟨[[Px.val 300]], some (Px.val 0)⟩).2 (by decide)⟩

/-! ## GridAligner: `resample_to_match_reference`
(era5_retriever.py lines 143-189; gldas21_retriever.py lines 131-164 is
the same logic). -/

/-- The six coefficients of a raster's affine transform; rasterio
compares `Affine` objects by exact equality of the coefficients. -/
structure Affine where
  a : ℚ
  b : ℚ
  c : ℚ
  d : ℚ
  e : ℚ
  f : ℚ
deriving DecidableEq

/-- The pixel-grid metadata of a GeoTIFF. -/
structure Grid where
  crs : Option String
  transform : Affine
  width : ℕ
  height : ℕ
deriving DecidableEq

/-- A GeoTIFF as the retrievers see it: grid metadata plus band count,
dtype, no-data value and pixel data. -/
structure Raster where
  grid : Grid
  count : ℕ
  dtype : String
  nodata : Option ℚ
  data : List (List ℚ)
deriving DecidableEq

/-- Embedding of `verify_image` (gldas21_retriever.py, lines 61-66; the
era5_retriever.py version differs only in logging): the file is valid
when it has a CRS and positive dimensions. -/
def verify_image (r : Raster) : Bool :=
  r.grid.crs.isSome && decide (0 < r.grid.width) && decide (0 < r.grid.height)

/-- The fast-path test of `resample_to_match_reference`:
`src.width == ref_meta['width'] and src.height == ref_meta['height']
and src.transform == ref_meta['transform']` — exact equality, the CRS
is not part of the test. -/
def gridMatches (src ref : Raster) : Prop :=
  src.grid.width = ref.grid.width ∧ src.grid.height = ref.grid.height ∧
    src.grid.transform = ref.grid.transform

instance (src ref : Raster) : Decidable (gridMatches src ref) := by
  unfold gridMatches
  infer_instance

/-- Embedding of `resample_to_match_reference`: on the fast path the function
returns without writing anything (`none`); otherwise it writes a raster
carrying the reference's grid (the `ref_meta` width, height, transform
and CRS) and the source's band count, dtype and no-data value, with
reprojected pixel data, and `shutil.move`s it over the source path
(`some`).  The per-band bilinear reprojection of the pixel data is
abstracted as the `reproject` parameter. -/
def resample_to_match_reference (reproject : Raster → Grid → List (List ℚ))
    (src ref : Raster) : Option Raster :=
  if gridMatches src ref then none
  else some ⟨ref.grid, src.count, src.dtype, src.nodata, reproject src ref.grid⟩

/-- The state of the source file after `resample_to_match_reference`:
replaced by the resampled raster, or untouched on the fast path. -/
def alignFile (reproject : Raster → Grid → List (List ℚ)) (src ref : Raster) : Raster :=
  (resample_to_match_reference reproject src ref).getD src

/-- C4: GridAligner is a no-op on an already-aligned input — exact
equality of width, height and transform yields no resampling and no
file rewrite — and alignment is idempotent:
`align (align X R) R = align X R` for every raster `X`, reference `R`
and reprojection kernel. -/
theorem resample_to_match_reference_noop_idempotent
    (reproject : Raster → Grid → List (List ℚ)) (src ref X : Raster) :
    (gridMatches src ref → resample_to_match_reference reproject src ref = none) ∧
    alignFile reproject (alignFile reproject X ref) ref = alignFile reproject X ref := by
  constructor
  · intro hm
    rw [resample_to_match_reference, if_pos hm]
  · by_cases hm : gridMatches X ref
    · have hX : alignFile reproject X ref = X := by
        rw [alignFile, resample_to_match_reference, if_pos hm]
        rfl
      rw [hX, hX]
    · have hXr : alignFile reproject X ref
          = ⟨ref.grid, X.count, X.dtype, X.nodata, reproject X ref.grid⟩ := by
        rw [alignFile, resample_to_match_reference, if_neg hm]
        rfl
      rw [hXr]
      have hm2 : gridMatches
          (⟨ref.grid, X.count, X.dtype, X.nodata, reproject X ref.grid⟩ : Raster) ref :=
        ⟨rfl, rfl, rfl⟩
      rw [alignFile, resample_to_match_reference, if_pos hm2]
      rfl

/-- A concrete reference grid and raster used by the witnesses. -/
def exAffine : Affine := ⟨1, 0, 0, 0, -1, 0⟩

def exGrid : Grid := ⟨some ("EPSG:4326"), exAffine, 100, 80⟩

def exRef : Raster := ⟨exGrid, 1, ("float32"), none, [[1, 2]]⟩

def reproject0 : Raster → Grid → List (List ℚ) := fun _ _ => [[0]]

/-- Witness for C4: an already-aligned raster takes the fast path. -/
theorem resample_to_match_reference_noop_witness :
    resample_to_match_reference reproject0 exRef exRef = none :=
  (resample_to_match_reference_noop_idempotent reproject0 exRef exRef exRef).1
    ⟨rfl, rfl, rfl⟩

/-! ## Existing-file skip (C8): `get_era5_for_date` and
`download_gldas_lsts` -/

/-- The fetch-and-align tail shared by both retrievers: perform the
network export (`fetched` is the raster the export wrote to the output
path, or `none` when the export failed and wrote nothing, in which case
a pre-existing file at the output path survives), then, if the output
path exists, resample it against the reference.  The `true` flag
records that a network fetch was performed. -/
def fetchAndAlign (reproject : Raster → Grid → List (List ℚ))
    (existing fetched : Option Raster) (ref : Raster) : Option Raster × Bool :=
  match fetched with
  | some r => (some (alignFile reproject r ref), true)
  | none =>
    match existing with
    | some f => (some (alignFile reproject f ref), true)
    | none => (none, true)

/-- Embedding of `get_era5_for_date` (era5_retriever.py, lines 193-245),
reduced to
its per-date file/network effect: with the global `SKIPPING = True`, an
existing output file is verified (result ignored) and re-aligned
against the reference with no download; otherwise the image is fetched
and, if the output file exists afterwards, aligned. -/
def get_era5_for_date (reproject : Raster → Grid → List (List ℚ))
    (existing fetched : Option Raster) (ref : Raster) : Option Raster × Bool :=
  match existing with
  | some f => (some (alignFile reproject f ref), false)
  | none => fetchAndAlign reproject none fetched ref

/-- The per-date body of the loop in `download_gldas_lsts`
(gldas21_retriever.py, lines 186-209): with `SKIP_EXISTING = True`, an
existing output file is skipped only when it also passes
`verify_image`; otherwise — including when an existing file fails
verification — the image is fetched again. -/
def download_gldas_lsts_step (reproject : Raster → Grid → List (List ℚ))
    (existing fetched : Option Raster) (ref : Raster) : Option Raster × Bool :=
  match existing with
  | some f =>
    if verify_image f then (some (alignFile reproject f ref), false)
    else fetchAndAlign reproject (some f) fetched ref
  | none => fetchAndAlign reproject none fetched ref

/-- An output file that exists but fails `verify_image` (it has no
CRS). -/
def badRaster : Raster := ⟨⟨none, exAffine, 100, 80⟩, 1, ("float32"), none, [[1, 2]]⟩

/-- C8 counterexample: for a target date whose destination file exists
but fails verification, the GLDAS retriever performs the network fetch
anyway, so "the fetch step performs no network call for every target
date whose destination output file already exists" is false. -/
theorem download_gldas_lsts_refetches_existing :
    (download_gldas_lsts_step reproject0 (some badRaster) (some exRef) exRef).2 = true := by
  rfl

/-- C8 (amended): for a date whose destination output file already
exists, the ERA5 retriever always — and the GLDAS retriever whenever
the existing file also passes verification — performs no network fetch
and passes the existing file through the aligner; an existing file that
is already grid-aligned is left unchanged (byte-identical).  (A GLDAS
existing file that fails verification is fetched again; see the
counterexample.) -/
theorem skip_existing_no_fetch (reproject : Raster → Grid → List (List ℚ))
    (f : Raster) (fetched : Option Raster) (ref : Raster) :
    get_era5_for_date reproject (some f) fetched ref
        = (some (alignFile reproject f ref), false) ∧
    (verify_image f = true →
      download_gldas_lsts_step reproject (some f) fetched ref
        = (some (alignFile reproject f ref), false)) ∧
    (gridMatches f ref → alignFile reproject f ref = f) := by
  refine ⟨rfl, ?_, ?_⟩
  · intro hv
    show (if verify_image f then (some (alignFile reproject f ref), false)
      else fetchAndAlign reproject (some f) fetched ref) = _
    rw [if_pos hv]
  · intro hm
    rw [alignFile, resample_to_match_reference, if_pos hm]
    rfl

/-- Witness for the amended C8: an existing, verified, already-aligned
output file is skipped by both retrievers and left unchanged. -/
theorem skip_existing_no_fetch_witness :
    get_era5_for_date reproject0 (some exRef) none exRef
        = (some (alignFile reproject0 exRef exRef), false) ∧
    download_gldas_lsts_step reproject0 (some exRef) none exRef
        = (some (alignFile reproject0 exRef exRef), false) ∧
    alignFile reproject0 exRef exRef = exRef :=
  ⟨(skip_existing_no_fetch reproject0 exRef none exRef).1,
   (skip_existing_no_fetch reproject0 exRef none exRef).2.1 (by decide),
   (skip_existing_no_fetch reproject0 exRef none exRef).2.2 ⟨rfl, rfl, rfl⟩⟩

/-! ## Atomic-write discipline (C1): file-system operation traces -/

/-- The observable content of one path during a run: absent, mid-write
(opened for writing, not yet fully written and closed), or complete. -/
inductive FileState where
  | absent : FileState
  | truncated : FileState
  | complete : FileState
deriving DecidableEq

/-- File-system operations at the granularity relevant to crash
atomicity.  `openW p` followed later by `closeW p` brackets a plain
`open(p, 'w')`/`rasterio.open(p, 'w')` write: between the two the path
holds partially written content.  `move a b` is `shutil.move` within
one directory, i.e. an atomic rename. -/
inductive FsOp where
  | openW : ℕ → FsOp
  | closeW : ℕ → FsOp
  | move : ℕ → ℕ → FsOp
  | remove : ℕ → FsOp
deriving DecidableEq

def applyFsOp (st : ℕ → FileState) : FsOp → ℕ → FileState
  | FsOp.openW p, q => if q = p then FileState.truncated else st q
  | FsOp.closeW p, q => if q = p then FileState.complete else st q
  | FsOp.move a b, q =>
    if q = b then st a else if q = a then FileState.absent else st q
  | FsOp.remove p, q => if q = p then FileState.absent else st q

/-- The file states after a prefix of a run; a crash at step `k`
leaves the state `runFsOps (ops.take k) init`. -/
def runFsOps (ops : List FsOp) (st : ℕ → FileState) : ℕ → FileState :=
  ops.foldl applyFsOp st

/-- The write trace of `export_ee_image` (era5_retriever.py, lines
71-141; gldas21_retriever.py, lines 68-125 is the same discipline): the
downloaded package and the extracted single-band files are written
inside the temporary directory (`tmpFiles`), then the merged multi-band
raster is written directly at the destination path with
`rasterio.open(out_path, 'w')`, and finally the temporary directory is
removed. -/
def export_ee_image_ops (outPath : ℕ) (tmpFiles : List ℕ) : List FsOp :=
  (tmpFiles.map (fun f => [FsOp.openW f, FsOp.closeW f])).flatten ++
    [FsOp.openW outPath, FsOp.closeW outPath] ++ tmpFiles.map FsOp.remove

/-- The write trace of the rewrite path of `resample_to_match_reference`
(era5_retriever.py, lines 169-185): write the resampled raster under
the temporary name `source_path + ".resampled.tif"` in the same
directory, then `shutil.move` it over the source path. -/
def resample_write_ops (tmpPath srcPath : ℕ) : List FsOp :=
  [FsOp.openW tmpPath, FsOp.closeW tmpPath, FsOp.move tmpPath srcPath]

/-- C1 counterexample: in `export_ee_image`'s trace (temporary zip at
path 1, one extracted band file at path 2, destination at path 0), a
crash right after the merged-raster write begins — after 5 of the 8
operations — leaves the destination path holding partially written
content: the fetched-raster write is not atomic. -/
theorem export_ee_image_not_atomic :
    runFsOps ((export_ee_image_ops 0 [1, 2]).take 5) (fun _ => FileState.absent) 0
      = FileState.truncated := by
  rfl

/-- C1 (amended): the realigned-raster write in
`resample_to_match_reference` is atomic — starting from any state in
which the source path is not mid-write, a crash after any prefix of its
trace never leaves the source path holding partially written content —
but `export_ee_image` writes the fetched/merged raster directly to the
destination path, so the atomicity claim holds only for the realigned
raster, not for the fetched one. -/
theorem resample_write_atomic (tmpPath srcPath : ℕ) (init : ℕ → FileState)
    (hne : tmpPath ≠ srcPath) (hinit : init srcPath ≠ FileState.truncated) (k : ℕ) :
    runFsOps ((resample_write_ops tmpPath srcPath).take k) init srcPath
      ≠ FileState.truncated := by
  have hns : ¬ (srcPath = tmpPath) := fun h => hne h.symm
  rcases k with _ | _ | _ | n
  · exact hinit
  · simp only [resample_write_ops, List.take_succ_cons, List.take_zero, runFsOps,
      List.foldl_cons, List.foldl_nil, applyFsOp]
    rw [if_neg hns]
    exact hinit
  · simp only [resample_write_ops, List.take_succ_cons, List.take_zero, runFsOps,
      List.foldl_cons, List.foldl_nil, applyFsOp]
    rw [if_neg hns, if_neg hns]
    exact hinit
  · have htake : (resample_write_ops tmpPath srcPath).take (n + 1 + 1 + 1)
        = resample_write_ops tmpPath srcPath := by
      apply List.take_of_length_le
      simp [resample_write_ops]
    rw [htake]
    simp [resample_write_ops, runFsOps, applyFsOp]

/-- Witness for the amended C1: crashing mid-write of the temporary
file (after 2 of the 3 operations, temporary path 1, source path 0,
source initially complete) leaves the source path intact. -/
theorem resample_write_atomic_witness :
    runFsOps ((resample_write_ops 1 0).take 2) (fun _ => FileState.complete) 0
      ≠ FileState.truncated :=
  resample_write_atomic 1 0 (fun _ => FileState.complete) (by decide) (by decide) 2

/-! ## Retry policy (C9): `download_ndvi` in `ndvi_retrieval.py` -/

/-- The outcome of one download attempt for one date: success (the
TIFF was extracted and moved into place), a request error, a bad ZIP,
or a package containing no TIFF — the latter three are caught and
retried. -/
inductive Outcome where
  | ok : Outcome
  | reqError : Outcome
  | badZip : Outcome
  | noTif : Outcome
deriving DecidableEq

/-- The retry loop of `download_ndvi` (ndvi_retrieval.py, lines
180-230): `for attempt in range(max_retries)`, breaking on success,
with `time.sleep(2 * (attempt + 1))` between a failed attempt and the
next (`attempt < max_retries - 1`).  `rem` counts the attempts
remaining.  Returns `download_success`, the number of attempts used,
and the list of backoff sleeps performed. -/
def retryLoop (outcomes : ℕ → Outcome) : ℕ → ℕ → Bool × ℕ × List ℕ
  | _, 0 => (false, 0, [])
  | attempt, rem + 1 =>
    if outcomes attempt = Outcome.ok then (true, attempt + 1, [])
    else if rem = 0 then (false, attempt + 1, [])
    else
      ((retryLoop outcomes (attempt + 1) rem).1,
       (retryLoop outcomes (attempt + 1) rem).2.1,
       2 * (attempt + 1) :: (retryLoop outcomes (attempt + 1) rem).2.2)

/-- One date's download in `download_ndvi`: `max_retries = 3`. -/
def download_ndvi_fetch (outcomes : ℕ → Outcome) : Bool × ℕ × List ℕ :=
  retryLoop outcomes 0 3

/-- The per-date loop of `download_ndvi`: each date's retry loop runs
to completion independently; a date that exhausts its retries is logged
as failed and the loop continues with the next date. -/
def download_ndvi_batch (batch : List (ℕ → Outcome)) : List Bool :=
  batch.map (fun o => (download_ndvi_fetch o).1)

theorem download_ndvi_fetch_eval (outcomes : ℕ → Outcome) :
    download_ndvi_fetch outcomes =
      if outcomes 0 = Outcome.ok then (true, 1, [])
      else if outcomes 1 = Outcome.ok then (true, 2, [2])
      else if outcomes 2 = Outcome.ok then (true, 3, [2, 4])
      else (false, 3, [2, 4]) := by
  have e1 : ∀ a, retryLoop outcomes a 1 =
      if outcomes a = Outcome.ok then (true, a + 1, []) else (false, a + 1, []) :=
    fun a => rfl
  have e2 : ∀ a, retryLoop outcomes a 2 =
      if outcomes a = Outcome.ok then (true, a + 1, [])
      else ((retryLoop outcomes (a + 1) 1).1, (retryLoop outcomes (a + 1) 1).2.1,
        2 * (a + 1) :: (retryLoop outcomes (a + 1) 1).2.2) :=
    fun a => rfl
  have e3 : retryLoop outcomes 0 3 =
      if outcomes 0 = Outcome.ok then (true, 1, [])
      else ((retryLoop outcomes 1 2).1, (retryLoop outcomes 1 2).2.1,
        2 * 1 :: (retryLoop outcomes 1 2).2.2) :=
    rfl
  rw [download_ndvi_fetch, e3, e2 1, e1 2]
  by_cases h0 : outcomes 0 = Outcome.ok
  · simp [h0]
  · by_cases h1 : outcomes 1 = Outcome.ok
    · simp [h0, h1]
    · by_cases h2 : outcomes 2 = Outcome.ok
      · simp [h0, h1, h2]
      · simp [h0, h1, h2]

/-- C9: one date's packaged-result fetch retries up to the fixed bound
of 3 attempts with increasing backoff between attempts; when all three
attempts fail transiently the fetch is recorded as failed (after
exactly 3 attempts and backoff sleeps of 2 s then 4 s); and one date's
failure never aborts the batch — every other date of the per-date loop
is still processed on its own outcomes. -/
theorem download_ndvi_retry_policy (outcomes : ℕ → Outcome) :
    (download_ndvi_fetch outcomes).2.1 ≤ 3 ∧
    ((∀ i, i < 3 → outcomes i ≠ Outcome.ok) →
      download_ndvi_fetch outcomes = (false, 3, [2, 4])) ∧
    List.Chain' (fun a b => a < b) (download_ndvi_fetch outcomes).2.2 ∧
    (∀ (pre post : List (ℕ → Outcome)),
      download_ndvi_batch (pre ++ outcomes :: post)
        = download_ndvi_batch pre
            ++ (download_ndvi_fetch outcomes).1 :: download_ndvi_batch post) := by
  refine ⟨?_, ?_, ?_, ?_⟩
  · rw [download_ndvi_fetch_eval]
    by_cases h0 : outcomes 0 = Outcome.ok
    · rw [if_pos h0]
      decide
    · by_cases h1 : outcomes 1 = Outcome.ok
      · rw [if_neg h0, if_pos h1]
        decide
      · by_cases h2 : outcomes 2 = Outcome.ok
        · rw [if_neg h0, if_neg h1, if_pos h2]
        · rw [if_neg h0, if_neg h1, if_neg h2]
  · intro hfail
    rw [download_ndvi_fetch_eval, if_neg (hfail 0 (by decide)),
      if_neg (hfail 1 (by decide)), if_neg (hfail 2 (by decide))]
  · rw [download_ndvi_fetch_eval]
    by_cases h0 : outcomes 0 = Outcome.ok
    · rw [if_pos h0]
      exact List.chain'_nil
    · by_cases h1 : outcomes 1 = Outcome.ok
      · rw [if_neg h0, if_pos h1]
        exact List.chain'_singleton 2
      · by_cases h2 : outcomes 2 = Outcome.ok
        · rw [if_neg h0, if_neg h1, if_pos h2]
          exact List.chain'_cons.mpr ⟨by norm_num, List.chain'_singleton 4⟩
        · rw [if_neg h0, if_neg h1, if_neg h2]
          exact List.chain'_cons.mpr ⟨by norm_num, List.chain'_singleton 4⟩
  · intro pre post
    simp [download_ndvi_batch]

/-- Witness for C9: with every attempt failing on a request error, the
fetch is recorded failed after exactly 3 attempts, with backoff sleeps
of 2 s then 4 s. -/
theorem download_ndvi_retry_policy_witness :
    download_ndvi_fetch (fun _ => Outcome.reqError) = (false, 3, [2, 4]) :=
  (download_ndvi_retry_policy (fun _ => Outcome.reqError)).2.1 (fun _ _ => by decide)

end DELAG
